import Mathlib

/-!
Shallow embedding of the reservationista message service.

The embedding follows the Python sources:
  src/database/db.py        relational store over sqlite (`Database`)
  src/git_handler.py        git working-tree writer (`GitHandler`)
  src/github_api.py         GitHub REST client (`GitHubAPI`)
  src/github_manager.py     coordinator (`GitHubManager`)
  src/server.py             HTTP request router (`MessageHandler`)

External effects (HTTP requests, subprocess exits, the wall clock) are
passed in as explicit parameters; sqlite tables become lists of rows with
an explicit next-AUTOINCREMENT counter.  `ORDER BY ... DESC` over
timestamps is embedded as a stable descending insertion sort, and
Python's `str.strip` as `pyStrip` over the character list.
-/

/-- Python `str.strip()`: remove leading and trailing whitespace. -/
def pyStrip (s : String) : String :=
  String.mk (((s.data.dropWhile Char.isWhitespace).reverse.dropWhile Char.isWhitespace).reverse)

/-! ## Relational store (src/database/db.py) -/

/-- A row of the `repositories` table: surrogate id, owner, name and the
`created_at` timestamp filled by `CURRENT_TIMESTAMP`. -/
structure RepoRow where
  id : Int
  owner : String
  name : String
  created_at : Nat
deriving DecidableEq

/-- A row of the `messages` table. -/
structure MessageRow where
  id : Int
  content : String
  repository_id : Option Int
  git_hash : Option String
  timestamp : Nat
deriving DecidableEq

/-- The sqlite database file: both tables plus the next AUTOINCREMENT
value of each. -/
structure DBState where
  repos : List RepoRow
  messages : List MessageRow
  nextRepoId : Int
  nextMsgId : Int
deriving DecidableEq

/-- A row of `get_message`'s query: a message LEFT JOINed with its owning
repository (`owner` and `repo_name` are NULL when the join finds none). -/
structure MessageRecord where
  id : Int
  content : String
  repository_id : Option Int
  git_hash : Option String
  timestamp : Nat
  owner : Option String
  repo_name : Option String
deriving DecidableEq

/-- The WHERE clause `owner = ? AND name = ?` of `add_repository`. -/
def Database.repoMatches (owner name : String) (r : RepoRow) : Bool :=
  r.owner == owner && r.name == name

/-- The WHERE clause `id = ?` over the repositories table. -/
def Database.repoHasId (rid : Int) (r : RepoRow) : Bool :=
  r.id == rid

/-- Embeds `Database.add_repository` (db.py 43-58): `INSERT INTO repositories`;
a duplicate `(owner, name)` pair violates the UNIQUE constraint
(`sqlite3.IntegrityError`), in which case the existing row's id is
selected and returned instead.  `now` is `CURRENT_TIMESTAMP` at the
insert. -/
def Database.add_repository (db : DBState) (owner name : String) (now : Nat) :
    Int × DBState :=
  if db.repos.any (Database.repoMatches owner name) then
    (((db.repos.find? (Database.repoMatches owner name)).map RepoRow.id).getD 0, db)
  else
    (db.nextRepoId,
     { db with
        repos := db.repos ++ [⟨db.nextRepoId, owner, name, now⟩],
        nextRepoId := db.nextRepoId + 1 })

/-- Newest-first order on repository rows (`ORDER BY created_at DESC`). -/
def repoNewerFirst (a b : RepoRow) : Prop :=
  b.created_at ≤ a.created_at

instance : DecidableRel repoNewerFirst :=
  fun a b => Nat.decLe b.created_at a.created_at

instance : IsTotal RepoRow repoNewerFirst :=
  ⟨fun a b => le_total b.created_at a.created_at⟩

instance : IsTrans RepoRow repoNewerFirst :=
  ⟨fun _ _ _ h1 h2 => le_trans h2 h1⟩

/-- Embeds `Database.get_repositories` (db.py 60-66):
`SELECT * FROM repositories ORDER BY created_at DESC`. -/
def Database.get_repositories (db : DBState) : List RepoRow :=
  List.insertionSort repoNewerFirst db.repos

/-- Embeds `Database.add_message` (db.py 68-76): insert a message row and return
`lastrowid`. -/
def Database.add_message (db : DBState) (content : String) (repository_id : Int)
    (git_hash : Option String) (now : Nat) : Int × DBState :=
  (db.nextMsgId,
   { db with
      messages := db.messages ++ [⟨db.nextMsgId, content, some repository_id, git_hash, now⟩],
      nextMsgId := db.nextMsgId + 1 })

/-- The LEFT JOIN of a message row with the repositories table. -/
def Database.joinRepo (db : DBState) (m : MessageRow) : MessageRecord :=
  let repo := m.repository_id.bind (fun rid => db.repos.find? (Database.repoHasId rid))
  ⟨m.id, m.content, m.repository_id, m.git_hash, m.timestamp,
    repo.map RepoRow.owner, repo.map RepoRow.name⟩

/-- Embeds `Database.get_message` (db.py 87-99): the message with the given id,
LEFT JOINed with its repository, or NULL when absent. -/
def Database.get_message (db : DBState) (message_id : Int) : Option MessageRecord :=
  (db.messages.find? (fun m => m.id == message_id)).map (Database.joinRepo db)

/-- Newest-first order on message rows (`ORDER BY m.timestamp DESC`). -/
def rowNewerFirst (a b : MessageRow) : Prop :=
  b.timestamp ≤ a.timestamp

instance : DecidableRel rowNewerFirst :=
  fun a b => Nat.decLe b.timestamp a.timestamp

instance : IsTotal MessageRow rowNewerFirst :=
  ⟨fun a b => le_total b.timestamp a.timestamp⟩

instance : IsTrans MessageRow rowNewerFirst :=
  ⟨fun _ _ _ h1 h2 => le_trans h2 h1⟩

/-- Embeds `Database.get_all_messages` (db.py 101-116): all messages joined with
their repositories, newest first, `LIMIT ?`.  The Python default for
`limit` is 100. -/
def Database.get_all_messages (db : DBState) (limit : Nat) : List MessageRecord :=
  (((List.insertionSort rowNewerFirst db.messages).map (Database.joinRepo db)).take limit)

/-- Embeds `Database.get_messages_by_repository` (db.py 118-134): messages with
`repository_id = ?`, joined, newest first, `LIMIT ?`.  The Python default
for `limit` is 50. -/
def Database.get_messages_by_repository (db : DBState) (repository_id : Int)
    (limit : Nat) : List MessageRecord :=
  (((List.insertionSort rowNewerFirst
      (db.messages.filter (fun m => m.repository_id == some repository_id))).map
        (Database.joinRepo db)).take limit)

/-! ## Git working-tree writer (src/git_handler.py) -/

/-- The outcome of every external step `GitHandler.save_message` takes, in
order: the JSON file write (an I/O error there is caught by the outer
`except`), the exit statuses of `git add` and `git commit`, the result of
`push_changes`, and what `git rev-parse HEAD` prints (none when it exits
non-zero). -/
structure GitOutcome where
  writeOk : Bool
  addOk : Bool
  commitOk : Bool
  pushOk : Bool
  revParseHash : Option String
deriving DecidableEq

/-- What `GitHandler.save_message` leaves behind in the local working
tree: whether the message file was written, staged, and committed. -/
structure TreeState where
  fileWritten : Bool
  staged : Bool
  committed : Bool
deriving DecidableEq

/-- Embeds `GitHandler.save_message` (git_handler.py 71-131): write the message
file, `git add`, `git commit`, `push_changes`, `git rev-parse HEAD`; each
failing step logs and returns `None`, and nothing already done is undone.
Returns the commit hash (if every step succeeded) and the tree state. -/
def GitHandler.save_message (o : GitOutcome) : Option String × TreeState :=
  if !o.writeOk then (none, ⟨false, false, false⟩)
  else if !o.addOk then (none, ⟨true, false, false⟩)
  else if !o.commitOk then (none, ⟨true, true, false⟩)
  else if !o.pushOk then (none, ⟨true, true, true⟩)
  else
    match o.revParseHash with
    | some h => (some h, ⟨true, true, true⟩)
    | none => (none, ⟨true, true, true⟩)

/-- The environment `GitHandler.push_changes` runs against: the stdout of
`git status --porcelain`, whether the token attribute is non-empty,
whether `git remote set-url origin` exits 0 (`check=True` raises
otherwise), and whether `git push -u origin main` exits 0. -/
structure PushEnv where
  statusOut : String
  tokenPresent : Bool
  setUrlOk : Bool
  pushExitZero : Bool
deriving DecidableEq

/-- Which external commands `push_changes` actually ran. -/
structure PushTrace where
  setUrlCalled : Bool
  pushCalled : Bool
deriving DecidableEq

/-- Embeds `GitHandler.push_changes` (git_handler.py 133-177): if
`git status --porcelain` prints nothing (after `strip()`), return True at
once; otherwise require the token, rewrite the remote URL, push, and
report whether the push exited 0.  Exceptions (missing token, failed
`set-url`) are caught and reported as False. -/
def GitHandler.push_changes (env : PushEnv) : Bool × PushTrace :=
  if pyStrip env.statusOut = "" then (true, ⟨false, false⟩)
  else if !env.tokenPresent then (false, ⟨false, false⟩)
  else if !env.setUrlOk then (false, ⟨true, false⟩)
  else if !env.pushExitZero then (false, ⟨true, true⟩)
  else (true, ⟨true, true⟩)

/-! ## GitHub REST client (src/github_api.py) -/

/-- One commit as returned by `GitHubAPI.get_commits` after parsing the
GitHub payload (dates are abstracted as naturals). -/
structure Commit where
  sha : String
  message : String
  author : String
  author_email : String
  date : Nat
  url : String
deriving DecidableEq

/-- One element of the JSON array the commits endpoint returns, already
shaped: the fields `get_commits` reads out of `commit_data`. -/
structure RawCommit where
  sha : String
  commit_message : String
  author_name : String
  author_email : String
  author_date : Nat
  html_url : String
deriving DecidableEq

/-- The dict `get_commits` builds from one `commit_data` element. -/
def GitHubAPI.parseCommit (c : RawCommit) : Commit :=
  ⟨c.sha, c.commit_message, c.author_name, c.author_email, c.author_date, c.html_url⟩

/-- Embeds `GitHubAPI.get_commits` (github_api.py 67-89) for one page.  The
parameter is the transport outcome: `.error` for a request exception
(connection failure etc.), `.ok (status, body)` for a response.
`response.raise_for_status()` turns any status ≥ 400 into an `HTTPError`
(a `RequestException`); the `except` clause logs and returns `[]`. -/
def GitHubAPI.get_commits (response : Except String (Nat × List RawCommit)) :
    List Commit :=
  match response with
  | .error _ => []
  | .ok (status, body) =>
    if 400 ≤ status then []
    else body.map GitHubAPI.parseCommit

/-- The page loop of `GitHubAPI.get_all_commits`, with `fetchPage p` the
value of `self.get_commits(repo_name, branch, per_page=100, page=p)` and
`fuel` the number of pages the `while page <= max_pages` guard still
allows. -/
def GitHubAPI.getAllCommitsAux (fetchPage : Nat → List Commit) :
    Nat → Nat → List Commit
  | _, 0 => []
  | page, fuel + 1 =>
    let commits := fetchPage page
    if commits.isEmpty then []
    else if commits.length < 100 then commits
    else commits ++ GitHubAPI.getAllCommitsAux fetchPage (page + 1) fuel

/-- Embeds `GitHubAPI.get_all_commits` (github_api.py 91-117): fetch pages of 100
commits starting at page 1, stop on an empty page, a short page, or after
`max_pages` pages, and concatenate. -/
def GitHubAPI.get_all_commits (fetchPage : Nat → List Commit) (max_pages : Nat) :
    List Commit :=
  GitHubAPI.getAllCommitsAux fetchPage 1 max_pages

/-! ## Coordinator (src/github_manager.py) -/

/-- One message dict built by `fetch_repository_messages` from a commit. -/
structure FetchedMessage where
  content : String
  author : String
  timestamp : Nat
  url : String
  repository : String
  sha : String
deriving DecidableEq

/-- Newest-first order on fetched messages
(`sort(key=lambda x: x.timestamp, reverse=True)`). -/
def msgNewerFirst (a b : FetchedMessage) : Prop :=
  b.timestamp ≤ a.timestamp

instance : DecidableRel msgNewerFirst :=
  fun a b => Nat.decLe b.timestamp a.timestamp

instance : IsTotal FetchedMessage msgNewerFirst :=
  ⟨fun a b => le_total b.timestamp a.timestamp⟩

instance : IsTrans FetchedMessage msgNewerFirst :=
  ⟨fun _ _ _ h1 h2 => le_trans h2 h1⟩

/-- The loop body of `fetch_all_messages`: skip a task that raised, extend
with the messages of one that succeeded. -/
def GitHubManager.collectOk (acc : List FetchedMessage)
    (result : Except String (List FetchedMessage)) : List FetchedMessage :=
  match result with
  | .error _ => acc
  | .ok ms => acc ++ ms

/-- Embeds `GitHubManager.fetch_all_messages` (github_manager.py 82-102):
`results` is what `asyncio.gather(..., return_exceptions=True)` delivered,
one entry per tracked repository, in repository order — `.error` for a
task that raised.  Failures are skipped, the rest concatenated and sorted
by timestamp, descending. -/
def GitHubManager.fetch_all_messages
    (results : List (Except String (List FetchedMessage))) : List FetchedMessage :=
  List.insertionSort msgNewerFirst (results.foldl GitHubManager.collectOk [])

/-- The first block of `GitHubManager.save_message` (github_manager.py
106-110): an explicit repository id is used as is; with none, the head of
`get_repositories()` is used, and an empty list raises `ValueError`. -/
def GitHubManager.resolve_repository_id (db : DBState) (repository_id : Option Int) :
    Except String Int :=
  match repository_id with
  | some rid => Except.ok rid
  | none =>
    match Database.get_repositories db with
    | [] => Except.error "No repositories available"
    | r :: _ => Except.ok r.id

/-- Embeds `GitHubManager.save_message` (github_manager.py 104-128): resolve the
target repository, look it up among the tracked repositories, run the git
writer (its return value is the `gitResult` parameter), raise when it
returned no hash, otherwise insert the message row and return
`get_message` of the new id.  The pair's second component is the database
after the call — unchanged whenever a `ValueError` is raised, since every
raise happens before `add_message`. -/
def GitHubManager.save_message (db : DBState) (gitResult : Option String)
    (content : String) (repository_id : Option Int) (now : Nat) :
    Except String (Option MessageRecord) × DBState :=
  match GitHubManager.resolve_repository_id db repository_id with
  | .error e => (Except.error e, db)
  | .ok rid =>
    if ((Database.get_repositories db).find? (Database.repoHasId rid)).isSome then
      match gitResult with
      | none => (Except.error "Failed to save message to Git repository", db)
      | some git_hash =>
        let inserted := Database.add_message db content rid (some git_hash) now
        (Except.ok (Database.get_message inserted.2 inserted.1), inserted.2)
    else (Except.error "Repository with ID not found", db)

/-- Embeds `GitHubManager.push_repository` (github_manager.py 130-152): require
the pair to be tracked, run `push_changes`, and wrap a False result in a
`ValueError`. -/
def GitHubManager.push_repository (db : DBState) (env : PushEnv)
    (owner name : String) : Except String Unit :=
  match (Database.get_repositories db).find? (Database.repoMatches owner name) with
  | none => Except.error "not tracked"
  | some _ =>
    if (GitHandler.push_changes env).1 then Except.ok ()
    else Except.error "Failed to push changes"

/-! ## Request router (src/server.py) -/

/-- The body of a `POST /messages` request as the handler reads it:
`content = none` models a body without the field. -/
structure PostMessageBody where
  content : Option String
  repository_id : Option Int
deriving DecidableEq

/-- The response `handle_post_message` sends. -/
inductive PostResponse where
  | created (record : Option MessageRecord)
  | badRequest (msg : String)
deriving DecidableEq

/-- Embeds `MessageHandler.handle_post_message` (server.py 116-149): reject a
missing `content` field, content empty after `strip()`, and stripped
content longer than 1000 characters, each with a 400; otherwise save and
answer 201 with the created record.  A `ValueError` out of the save is a
400 as well. -/
def MessageHandler.handle_post_message (db : DBState) (gitResult : Option String)
    (body : PostMessageBody) (now : Nat) : PostResponse × DBState :=
  match body.content with
  | none => (PostResponse.badRequest "Message content is required", db)
  | some raw =>
    let content := pyStrip raw
    if content = "" then (PostResponse.badRequest "Message content cannot be empty", db)
    else if 1000 < content.length then
      (PostResponse.badRequest "Message content too long (maximum 1000 characters)", db)
    else
      match GitHubManager.save_message db gitResult content body.repository_id now with
      | (Except.ok record, db2) => (PostResponse.created record, db2)
      | (Except.error e, db2) => (PostResponse.badRequest e, db2)

/-- Embeds `MessageHandler.handle_get_messages` (server.py 63-81): an absent or
zero `repository_id` query value is falsy, so the unfiltered listing with
the store's default limit 100 is served; a non-zero value selects the
filtered listing with the store's default limit 50.  The router passes no
limit in either case. -/
def MessageHandler.handle_get_messages (db : DBState) (repository_id : Option Int) :
    List MessageRecord :=
  match repository_id with
  | some rid =>
    if rid ≠ 0 then Database.get_messages_by_repository db rid 50
    else Database.get_all_messages db 100
  | none => Database.get_all_messages db 100

/-- Embeds `MessageHandler.handle_push_repository` (server.py 151-174): 400 when
owner or name is missing or the push raised a `ValueError`, 200 with a
success payload otherwise. -/
def MessageHandler.handle_push_repository (db : DBState) (env : PushEnv)
    (body : Option (String × String)) : Nat :=
  match body with
  | none => 400
  | some ownerName =>
    match GitHubManager.push_repository db env ownerName.1 ownerName.2 with
    | .ok _ => 200
    | .error _ => 400

/-! ## Concrete fixtures used by the closed witness theorems -/

/-- A database tracking a single repository `alice/demo` and holding no
messages. -/
def dbOne : DBState :=
  ⟨[⟨1, "alice", "demo", 0⟩], [], 2, 1⟩

/-- A database tracking `alice/demo` (added at time 5) and
`bob/widgets` (added at time 9). -/
def dbTwoRepos : DBState :=
  ⟨[⟨1, "alice", "demo", 5⟩, ⟨2, "bob", "widgets", 9⟩], [], 3, 1⟩

/-- A push environment whose `git status --porcelain` printed only a
newline: a clean working tree (the remaining steps are set to fail, to
show they are never reached). -/
def envCleanTree : PushEnv :=
  ⟨"\n", false, false, false⟩

/-- A fixed commit value for page-fetch fixtures. -/
def commit0 : Commit :=
  ⟨"sha", "msg", "au", "ae", 0, "url"⟩

/-- A page oracle: page 1 is full (100 commits), page 2 is short (30),
later pages are empty. -/
def pageFetchExample (p : Nat) : List Commit :=
  if p = 1 then List.replicate 100 commit0
  else if p = 2 then List.replicate 30 commit0
  else []

/-! ## Helper lemmas -/

/-- Folding `collectOk` concatenates exactly the successful results, in
order, after the accumulator. -/
theorem collectOk_foldl :
    ∀ (results : List (Except String (List FetchedMessage))) (acc : List FetchedMessage),
      results.foldl GitHubManager.collectOk acc
        = acc ++ (results.filterMap Except.toOption).flatten := by
  intro results
  induction results with
  | nil => intro acc; simp
  | cons r rest ih =>
    intro acc
    cases r with
    | error e => simpa [GitHubManager.collectOk, Except.toOption] using ih acc
    | ok ms => simpa [GitHubManager.collectOk, Except.toOption, List.append_assoc] using ih (acc ++ ms)

/-- The page loop returns at most 100 commits per unit of fuel. -/
theorem getAllCommitsAux_length_le (fetchPage : Nat → List Commit)
    (hf : ∀ p, (fetchPage p).length ≤ 100) :
    ∀ (fuel page : Nat),
      (GitHubAPI.getAllCommitsAux fetchPage page fuel).length ≤ 100 * fuel := by
  intro fuel
  induction fuel with
  | zero => intro page; simp [GitHubAPI.getAllCommitsAux]
  | succ n ih =>
    intro page
    simp only [GitHubAPI.getAllCommitsAux]
    split_ifs with h1 h2
    · simp
    · have := hf page
      omega
    · rw [List.length_append]
      have h3 := ih (page + 1)
      have h4 := hf page
      omega

/-- The page loop fetches consecutive pages starting at `page`: it
returns the concatenation of some first `c` pages, every page before the
last fetched one was full, and when it stopped before running out of fuel
the last fetched page was short. -/
theorem getAllCommitsAux_spec (fetchPage : Nat → List Commit)
    (hf : ∀ p, (fetchPage p).length ≤ 100) :
    ∀ (fuel page : Nat),
      ∃ c, c ≤ fuel ∧
        GitHubAPI.getAllCommitsAux fetchPage page fuel
          = ((List.range' page c).map fetchPage).flatten ∧
        (∀ j, j + 1 < c → (fetchPage (page + j)).length = 100) ∧
        (c < fuel → ∃ j, c = j + 1 ∧ (fetchPage (page + j)).length < 100) := by
  intro fuel
  induction fuel with
  | zero =>
    intro page
    refine ⟨0, le_refl 0, by simp [GitHubAPI.getAllCommitsAux], ?_, ?_⟩
    · intro j hj
      omega
    · intro h
      omega
  | succ n ih =>
    intro page
    simp only [GitHubAPI.getAllCommitsAux]
    split_ifs with h1 h2
    · have hempty : fetchPage page = [] := List.isEmpty_iff.mp h1
      refine ⟨1, by omega, ?_, ?_, ?_⟩
      · simp [List.range'_one, hempty]
      · intro j hj
        omega
      · intro _
        refine ⟨0, rfl, ?_⟩
        simp [hempty]
    · refine ⟨1, by omega, ?_, ?_, ?_⟩
      · simp [List.range'_one]
      · intro j hj
        omega
      · intro _
        exact ⟨0, rfl, by simpa using h2⟩
    · obtain ⟨c, hc_le, heq, hfull, hstop⟩ := ih (page + 1)
      have hlen : (fetchPage page).length = 100 := le_antisymm (hf page) (by omega)
      refine ⟨c + 1, by omega, ?_, ?_, ?_⟩
      · rw [List.range'_succ, List.map_cons, List.flatten_cons, heq]
      · intro j hj
        cases j with
        | zero => simpa using hlen
        | succ m =>
          have hm := hfull m (by omega)
          rw [show page + (m + 1) = page + 1 + m by omega]
          exact hm
      · intro hlt
        obtain ⟨j, hj, hshort⟩ := hstop (by omega)
        refine ⟨j + 1, by omega, ?_⟩
        rw [show page + (j + 1) = page + 1 + j by omega]
        exact hshort
/-! ## Claim C2 -/

/-- C2: registering the same `(owner, name)` pair a second time is
idempotent — the second `add_repository` call returns the id the first
call returned, and leaves the database exactly as the first call left it
(no second row). -/
theorem add_repository_idempotent :
    ∀ (db : DBState) (owner name : String) (t1 t2 : Nat),
      (Database.add_repository (Database.add_repository db owner name t1).2 owner name t2).1
          = (Database.add_repository db owner name t1).1 ∧
      (Database.add_repository (Database.add_repository db owner name t1).2 owner name t2).2
          = (Database.add_repository db owner name t1).2 := by
  intro db owner name t1 t2
  by_cases h : db.repos.any (Database.repoMatches owner name) = true
  · simp [Database.add_repository, h]
  · have hfalse : db.repos.any (Database.repoMatches owner name) = false :=
      Bool.eq_false_iff.mpr h
    have hrow :
        Database.repoMatches owner name (⟨db.nextRepoId, owner, name, t1⟩ : RepoRow) = true := by
      simp [Database.repoMatches]
    have hnone : db.repos.find? (Database.repoMatches owner name) = none :=
      List.find?_eq_none.mpr (fun x hx hp => (List.any_eq_false.mp hfalse x hx) hp)
    simp [Database.add_repository, hfalse, hrow, hnone]


/-! ## Claim C8 -/

/-- C8: the git writer returns a commit hash only when every step of the
sequence succeeded; any failing step makes it return no hash; and steps
already performed are not rolled back — the file stays written once the
write succeeded, and the commit stays once `git commit` succeeded, even
when the push then fails. -/
theorem git_save_message_steps :
    ∀ o : GitOutcome,
      (∀ hsh : String, (GitHandler.save_message o).1 = some hsh →
        o.writeOk = true ∧ o.addOk = true ∧ o.commitOk = true ∧ o.pushOk = true ∧
          o.revParseHash = some hsh) ∧
      ((o.writeOk = false ∨ o.addOk = false ∨ o.commitOk = false ∨ o.pushOk = false ∨
          o.revParseHash = none) → (GitHandler.save_message o).1 = none) ∧
      (o.writeOk = true → (GitHandler.save_message o).2.fileWritten = true) ∧
      (o.writeOk = true → o.addOk = true → o.commitOk = true →
        (GitHandler.save_message o).2.committed = true) := by
  rintro ⟨w, a, c, p, rv⟩
  cases w <;> cases a <;> cases c <;> cases p <;> cases rv <;>
    simp [GitHandler.save_message]

/-- C8 witness: a concrete run where the push step fails — no hash comes
back but the commit is still in place. -/
theorem git_save_message_steps_witness :
    (GitHandler.save_message ⟨true, true, true, false, none⟩).1 = none ∧
      (GitHandler.save_message ⟨true, true, true, false, none⟩).2.committed = true :=
  ⟨(git_save_message_steps ⟨true, true, true, false, none⟩).2.1 (Or.inr (Or.inr (Or.inr (Or.inl rfl)))),
   (git_save_message_steps ⟨true, true, true, false, none⟩).2.2.2 rfl rfl rfl⟩

/-! ## Claim C7 -/

/-- C7: every request exception in the single-page commit fetch — a
transport error or a status ≥ 400 turned into an `HTTPError` by
`raise_for_status` — yields the empty list, the same value a repository
with zero commits yields, so the two cases are indistinguishable to the
caller. -/
theorem get_commits_error_empty :
    ∀ (e : String) (status : Nat) (body : List RawCommit),
      GitHubAPI.get_commits (Except.error e) = [] ∧
      (400 ≤ status → GitHubAPI.get_commits (Except.ok (status, body)) = []) ∧
      GitHubAPI.get_commits (Except.error e) = GitHubAPI.get_commits (Except.ok (200, [])) := by
  intro e status body
  refine ⟨rfl, ?_, rfl⟩
  intro h
  simp [GitHubAPI.get_commits, h]

/-- C7 witness: a concrete 404 response and a concrete connection error
both come back as zero commits. -/
theorem get_commits_error_empty_witness :
    (400 ≤ 404 ∧ GitHubAPI.get_commits (Except.ok (404, [⟨"s", "m", "a", "e", 0, "u"⟩])) = []) ∧
      GitHubAPI.get_commits (Except.error "connection refused") = [] :=
  ⟨⟨by decide, (get_commits_error_empty "connection refused" 404 [⟨"s", "m", "a", "e", 0, "u"⟩]).2.1 (by decide)⟩,
   (get_commits_error_empty "connection refused" 404 []).1⟩

/-! ## Claim C4 -/

/-- C4: with any subset of the per-repository fetch tasks failing,
`fetch_all_messages` returns a permutation of the concatenation of the
non-failing repositories' results — nothing more, nothing less, no
exception propagated — and the returned list is sorted by timestamp,
descending. -/
theorem fetch_all_messages_spec :
    ∀ results : List (Except String (List FetchedMessage)),
      (GitHubManager.fetch_all_messages results).Perm
          ((results.filterMap Except.toOption).flatten) ∧
      List.Sorted msgNewerFirst (GitHubManager.fetch_all_messages results) := by
  intro results
  have hfold : results.foldl GitHubManager.collectOk []
      = (results.filterMap Except.toOption).flatten := by
    simpa using collectOk_foldl results []
  constructor
  · rw [GitHubManager.fetch_all_messages, hfold]
    exact List.perm_insertionSort msgNewerFirst _
  · rw [GitHubManager.fetch_all_messages]
    exact List.sorted_insertionSort msgNewerFirst _

/-! ## Claim C6 -/

/-- C6: the all-pages commit fetch requests pages of 100 starting at page
1; it returns the concatenation, in page order, of the first `k` pages
for some `k ≤ max_pages`, where every page before the `k`-th was a full
100 and, when it stopped before `max_pages`, the `k`-th page was short
(fewer than 100 commits, an empty page included); hence it returns at
most `100 * max_pages` commits. -/
theorem get_all_commits_pagination :
    ∀ (fetchPage : Nat → List Commit) (max_pages : Nat),
      (∀ p, (fetchPage p).length ≤ 100) →
      ((GitHubAPI.get_all_commits fetchPage max_pages).length ≤ 100 * max_pages ∧
        ∃ k, k ≤ max_pages ∧
          GitHubAPI.get_all_commits fetchPage max_pages
            = ((List.range' 1 k).map fetchPage).flatten ∧
          (∀ i, 1 ≤ i → i < k → (fetchPage i).length = 100) ∧
          (k < max_pages → ∃ j, k = j + 1 ∧ (fetchPage (1 + j)).length < 100)) := by
  intro fetchPage max_pages hf
  constructor
  · exact getAllCommitsAux_length_le fetchPage hf max_pages 1
  · obtain ⟨c, hc_le, heq, hfull, hstop⟩ := getAllCommitsAux_spec fetchPage hf max_pages 1
    refine ⟨c, hc_le, heq, ?_, hstop⟩
    intro i h1 h2
    have hm := hfull (i - 1) (by omega)
    rw [show 1 + (i - 1) = i by omega] at hm
    exact hm

/-- C6 witness: a repository whose page 1 is full and page 2 short, with
`max_pages = 5`. -/
theorem get_all_commits_pagination_witness :
    (∀ p, (pageFetchExample p).length ≤ 100) ∧
      ((GitHubAPI.get_all_commits pageFetchExample 5).length ≤ 100 * 5 ∧
        ∃ k, k ≤ 5 ∧
          GitHubAPI.get_all_commits pageFetchExample 5
            = ((List.range' 1 k).map pageFetchExample).flatten ∧
          (∀ i, 1 ≤ i → i < k → (pageFetchExample i).length = 100) ∧
          (k < 5 → ∃ j, k = j + 1 ∧ (pageFetchExample (1 + j)).length < 100)) := by
  have hp : ∀ p, (pageFetchExample p).length ≤ 100 := by
    intro p
    by_cases h1 : p = 1
    · simp [pageFetchExample, h1]
    · by_cases h2 : p = 2
      · simp [pageFetchExample, h1, h2]
      · simp [pageFetchExample, h1, h2]
  exact ⟨hp, get_all_commits_pagination pageFetchExample 5 hp⟩

/-! ## Claim C1 -/

/-- C1 counterexample: with one tracked repository and a git writer that
returns no hash, `save_message` does not record the message with a null
commit hash and return the record — it raises
`ValueError("Failed to save message to Git repository")` and leaves the
message table empty. -/
theorem save_message_git_failure_cex :
    GitHubManager.save_message dbOne none "hello" (some 1) 0
        = (Except.error "Failed to save message to Git repository", dbOne) ∧
      (GitHubManager.save_message dbOne none "hello" (some 1) 0).2.messages = [] := by
  constructor <;> rfl

/-- C1 amended: when the git writer returns no hash for a resolvable
repository, `save_message` raises
`ValueError("Failed to save message to Git repository")` and the
relational store is left untouched — no message row is inserted; a
message row is recorded only when the git writer did return a hash, and
then with that hash. -/
theorem save_message_git_failure_raises :
    ∀ (db : DBState) (content : String) (rid : Int) (now : Nat),
      (((Database.get_repositories db).find? (Database.repoHasId rid)).isSome = true →
        GitHubManager.save_message db none content (some rid) now
          = (Except.error "Failed to save message to Git repository", db)) ∧
      (∀ (gitResult : Option String) (record : Option MessageRecord) (db2 : DBState),
        GitHubManager.save_message db gitResult content (some rid) now
            = (Except.ok record, db2) →
        ∃ h, gitResult = some h ∧
          db2.messages = db.messages
            ++ [⟨db.nextMsgId, content, some rid, some h, now⟩]) := by
  intro db content rid now
  constructor
  · intro hfound
    simp [GitHubManager.save_message, GitHubManager.resolve_repository_id, hfound]
  · intro g record db2 heq
    by_cases hfound :
        ((Database.get_repositories db).find? (Database.repoHasId rid)).isSome = true
    · cases g with
      | none =>
        simp [GitHubManager.save_message, GitHubManager.resolve_repository_id, hfound] at heq
      | some h =>
        refine ⟨h, rfl, ?_⟩
        simp [GitHubManager.save_message, GitHubManager.resolve_repository_id, hfound] at heq
        rw [← heq.2]
        simp [Database.add_message]
    · simp [GitHubManager.save_message, GitHubManager.resolve_repository_id, hfound] at heq

/-- C1 amended witness: the concrete one-repository database. -/
theorem save_message_git_failure_raises_witness :
    GitHubManager.save_message dbOne none "hi" (some 1) 3
        = (Except.error "Failed to save message to Git repository", dbOne) :=
  (save_message_git_failure_raises dbOne "hi" 1 3).1 (by decide)

/-! ## Claim C5 -/

/-- C5: posting with the repository id omitted fails with
`ValueError("No repositories available")` when nothing is tracked;
otherwise the target is the head of the repository list ordered newest
first — `save_message` behaves exactly as if that head's id had been
passed, and that head's `created_at` is maximal among all tracked
repositories. -/
theorem save_message_default_repository :
    ∀ (db : DBState) (gitResult : Option String) (content : String) (now : Nat),
      (db.repos = [] →
        GitHubManager.save_message db gitResult content none now
          = (Except.error "No repositories available", db)) ∧
      (∀ (r : RepoRow) (rest : List RepoRow),
        Database.get_repositories db = r :: rest →
        GitHubManager.resolve_repository_id db none = Except.ok r.id ∧
        GitHubManager.save_message db gitResult content none now
            = GitHubManager.save_message db gitResult content (some r.id) now ∧
        (∀ s ∈ db.repos, s.created_at ≤ r.created_at)) := by
  intro db g content now
  constructor
  · intro hempty
    have hrep : Database.get_repositories db = [] := by
      simp [Database.get_repositories, hempty]
    simp [GitHubManager.save_message, GitHubManager.resolve_repository_id, hrep]
  · intro r rest hsorted
    refine ⟨?_, ?_, ?_⟩
    · simp [GitHubManager.resolve_repository_id, hsorted]
    · simp [GitHubManager.save_message, GitHubManager.resolve_repository_id, hsorted]
    · intro s hs
      have hmem0 : s ∈ List.insertionSort repoNewerFirst db.repos :=
        (List.perm_insertionSort repoNewerFirst db.repos).mem_iff.mpr hs
      have hmem : s ∈ r :: rest := by
        rw [← hsorted]
        exact hmem0
      have hsort : List.Sorted repoNewerFirst (r :: rest) := by
        rw [← hsorted]
        exact List.sorted_insertionSort repoNewerFirst db.repos
      rcases List.mem_cons.mp hmem with h1 | h2
      · rw [h1]
      · exact List.rel_of_sorted_cons hsort s h2

/-- C5 witness: with `alice/demo` added at time 5 and `bob/widgets` at
time 9, the omitted id resolves to `bob/widgets` (id 2), whose
`created_at` dominates every tracked repository. -/
theorem save_message_default_repository_witness :
    GitHubManager.resolve_repository_id dbTwoRepos none = Except.ok 2 ∧
      (∀ s ∈ dbTwoRepos.repos, s.created_at ≤ 9) := by
  have h := (save_message_default_repository dbTwoRepos none "hi" 0).2
    ⟨2, "bob", "widgets", 9⟩ [⟨1, "alice", "demo", 5⟩] (by decide)
  exact ⟨h.1, h.2.2⟩

/-! ## Claim C9 -/

/-- C9: when `git status --porcelain` prints nothing (after `strip()`),
`push_changes` returns True immediately — the remote URL is not
rewritten and `git push` is not invoked — and a `POST /push` for a
tracked repository over such a clean tree is answered 200 even though
nothing was sent. -/
theorem push_changes_clean_tree :
    ∀ (env : PushEnv) (db : DBState) (owner name : String),
      pyStrip env.statusOut = "" →
      (GitHandler.push_changes env = (true, ⟨false, false⟩) ∧
        (((Database.get_repositories db).find? (Database.repoMatches owner name)).isSome
            = true →
          MessageHandler.handle_push_repository db env (some (owner, name)) = 200)) := by
  intro env db owner name hclean
  have h1 : GitHandler.push_changes env = (true, ⟨false, false⟩) := by
    simp [GitHandler.push_changes, hclean]
  refine ⟨h1, ?_⟩
  intro hfound
  rcases Option.isSome_iff_exists.mp hfound with ⟨r, hr⟩
  simp [MessageHandler.handle_push_repository, GitHubManager.push_repository, hr, h1]

/-- C9 witness: a clean tree whose token, set-url and push steps would
all fail, against the one-repository database: still a 200. -/
theorem push_changes_clean_tree_witness :
    GitHandler.push_changes envCleanTree = (true, ⟨false, false⟩) ∧
      MessageHandler.handle_push_repository dbOne envCleanTree (some ("alice", "demo")) = 200 := by
  have h := push_changes_clean_tree envCleanTree dbOne "alice" "demo" (by decide)
  exact ⟨h.1, h.2 (by decide)⟩

/-! ## Claim C10 -/

/-- C10: a `GET /messages` response never holds more than 100 records,
and never more than 50 when a non-zero `repository_id` filter was given —
the router passes no limit, so the store's defaults (100 unfiltered, 50
filtered) are the hard caps and no caller can request more. -/
theorem handle_get_messages_caps :
    ∀ (db : DBState) (repository_id : Option Int),
      (MessageHandler.handle_get_messages db repository_id).length ≤ 100 ∧
      (∀ rid : Int, repository_id = some rid → rid ≠ 0 →
        (MessageHandler.handle_get_messages db repository_id).length ≤ 50) := by
  intro db rid?
  have hall : (Database.get_all_messages db 100).length ≤ 100 := by
    simp [Database.get_all_messages, List.length_take]
  have hby : ∀ rid : Int, (Database.get_messages_by_repository db rid 50).length ≤ 50 := by
    intro rid
    simp [Database.get_messages_by_repository, List.length_take]
  constructor
  · cases rid? with
    | none => simpa [MessageHandler.handle_get_messages] using hall
    | some rid =>
      by_cases h : rid = 0
      · simpa [MessageHandler.handle_get_messages, h] using hall
      · have := hby rid
        simp [MessageHandler.handle_get_messages, h]
        omega
  · intro rid heq hne
    subst heq
    simpa [MessageHandler.handle_get_messages, hne] using hby rid

/-- C10 witness: a filtered listing against the concrete database is
capped at 50. -/
theorem handle_get_messages_caps_witness :
    (MessageHandler.handle_get_messages dbOne (some 2)).length ≤ 50 :=
  (handle_get_messages_caps dbOne (some 2)).2 2 rfl (by decide)

/-! ## Claim C3 -/

/-- C3: a `POST /messages` body without a `content` field, with content
empty (or whitespace-only) after stripping, or with stripped content of
more than 1000 characters, is answered 400 with the database untouched;
stripped content of exactly 1000 characters passes validation, and — for
a tracked target repository and a git writer returning a hash — is
answered 201 with the created record, the message now stored. -/
theorem handle_post_message_validation :
    ∀ (db : DBState) (gitResult : Option String) (body : PostMessageBody) (now : Nat),
      (body.content = none →
        MessageHandler.handle_post_message db gitResult body now
          = (PostResponse.badRequest "Message content is required", db)) ∧
      (∀ raw, body.content = some raw → pyStrip raw = "" →
        MessageHandler.handle_post_message db gitResult body now
          = (PostResponse.badRequest "Message content cannot be empty", db)) ∧
      (∀ raw, body.content = some raw → 1000 < (pyStrip raw).length →
        MessageHandler.handle_post_message db gitResult body now
          = (PostResponse.badRequest "Message content too long (maximum 1000 characters)", db)) ∧
      (∀ (raw : String) (rid : Int) (gh : String),
        body.content = some raw → (pyStrip raw).length = 1000 →
        body.repository_id = some rid →
        ((Database.get_repositories db).find? (Database.repoHasId rid)).isSome = true →
        gitResult = some gh →
        (∀ m ∈ db.messages, m.id ≠ db.nextMsgId) →
        ∃ (rec : MessageRecord) (db2 : DBState),
          MessageHandler.handle_post_message db gitResult body now
              = (PostResponse.created (some rec), db2) ∧
          rec.content = pyStrip raw ∧
          rec.git_hash = some gh ∧
          rec.repository_id = some rid ∧
          rec.timestamp = now ∧
          db2.messages = db.messages
            ++ [⟨db.nextMsgId, pyStrip raw, some rid, some gh, now⟩]) := by
  intro db gitResult body now
  refine ⟨?_, ?_, ?_, ?_⟩
  · intro h
    simp [MessageHandler.handle_post_message, h]
  · intro raw hc hstrip
    simp [MessageHandler.handle_post_message, hc, hstrip]
  · intro raw hc hlen
    have hne : ¬ pyStrip raw = "" := by
      intro h0
      rw [h0] at hlen
      simp at hlen
    simp [MessageHandler.handle_post_message, hc, hne, hlen]
  · intro raw rid gh hc hlen hrid hfound hg hfresh
    have hne : ¬ pyStrip raw = "" := by
      intro h0
      rw [h0] at hlen
      simp at hlen
    have hnotlong : ¬ 1000 < (pyStrip raw).length := by omega
    subst hg
    have hmsg_find :
        (db.messages ++ [(⟨db.nextMsgId, pyStrip raw, some rid, some gh, now⟩ : MessageRow)]).find?
            (fun m => m.id == db.nextMsgId)
          = some (⟨db.nextMsgId, pyStrip raw, some rid, some gh, now⟩ : MessageRow) := by
      rw [List.find?_append]
      have h0 : db.messages.find? (fun m => m.id == db.nextMsgId) = none :=
        List.find?_eq_none.mpr (fun m hm hp => hfresh m hm (by simpa using hp))
      rw [h0, Option.none_or]
      exact List.find?_cons_of_pos _ (by simp)
    have hsave :
        GitHubManager.save_message db (some gh) (pyStrip raw) (some rid) now
          = (Except.ok (some (Database.joinRepo
              { db with
                  messages := db.messages
                    ++ [⟨db.nextMsgId, pyStrip raw, some rid, some gh, now⟩],
                  nextMsgId := db.nextMsgId + 1 }
              ⟨db.nextMsgId, pyStrip raw, some rid, some gh, now⟩)),
            { db with
                messages := db.messages
                  ++ [⟨db.nextMsgId, pyStrip raw, some rid, some gh, now⟩],
                nextMsgId := db.nextMsgId + 1 }) := by
      simp only [GitHubManager.save_message, GitHubManager.resolve_repository_id, hfound,
        if_true, Database.add_message, Database.get_message]
      rw [hmsg_find]
      rfl
    refine ⟨Database.joinRepo
        { db with
            messages := db.messages ++ [⟨db.nextMsgId, pyStrip raw, some rid, some gh, now⟩],
            nextMsgId := db.nextMsgId + 1 }
        ⟨db.nextMsgId, pyStrip raw, some rid, some gh, now⟩,
      { db with
          messages := db.messages ++ [⟨db.nextMsgId, pyStrip raw, some rid, some gh, now⟩],
          nextMsgId := db.nextMsgId + 1 },
      ?_, ?_, ?_, ?_, ?_, ?_⟩
    · rw [show MessageHandler.handle_post_message db (some gh) body now
          = (match GitHubManager.save_message db (some gh) (pyStrip raw)
                body.repository_id now with
             | (Except.ok record, db2) => (PostResponse.created record, db2)
             | (Except.error e, db2) => (PostResponse.badRequest e, db2)) from by
        simp [MessageHandler.handle_post_message, hc, hne, hnotlong]]
      rw [hrid, hsave]
    · simp [Database.joinRepo]
    · simp [Database.joinRepo]
    · simp [Database.joinRepo]
    · simp [Database.joinRepo]
    · simp

/-- C3 witness: a whitespace-only body against the concrete database is
rejected with the database unchanged. -/
theorem handle_post_message_validation_witness :
    pyStrip "   " = "" ∧
      MessageHandler.handle_post_message dbOne (some "h") ⟨some "   ", none⟩ 0
        = (PostResponse.badRequest "Message content cannot be empty", dbOne) :=
  ⟨by decide,
   (handle_post_message_validation dbOne (some "h") ⟨some "   ", none⟩ 0).2.1
     "   " rfl (by decide)⟩
